import Mathlib

/-!
Verification development for `github_cloner.py` (axion-project/github_cloner).

The file shallowly embeds the two core components of the script:

* the cursor-paginated repository enumerator
  (`GitHubCloner.graphql_query`, `GitHubCloner.fetch_all_repositories`,
  src/github_cloner.py lines 46-126), and
* the clone-or-update sync engine
  (`GitHubCloner.clone_or_update_repo`, lines 128-178, the semaphore-driven
  driver in `GitHubCloner.run`, lines 209-225, and the `__main__` guard,
  lines 243-250).

Modelling conventions:

* The GraphQL server is modelled as the stream of responses it returns to the
  successive requests of each loop.  The script's cursor threading
  (`repo_cursor = repos.pageInfo.endCursor`, then `after: $repoCursor`) is
  deterministic per cursor, so the i-th request of a loop receives the i-th
  element of that loop's response stream; `hasNextPage` is read from the
  response itself, exactly as the code does.  Step 1 (personal repositories,
  passing only `repoCursor`) consumes `World.personalResps`; every inner
  organization loop (passing only `orgCursor`, restarting from `None`)
  consumes `World.orgResps` from its beginning.
* HTTP outcomes are part of each response: `status` is the HTTP status code
  and `errors` the optional API-level error list of the JSON payload, both
  inspected by `graphql_query` (lines 50-56).
* Exceptions are `Except`: `graphql_query` raising is `Except.error`, and the
  loops of `fetch_all_repositories` propagate it untouched (no try/except
  around them in the source).
-/

/-- A repository node as selected by the GraphQL query (lines 66-71 / 79-84):
`name`, `nameWithOwner`, `sshUrl`, `isPrivate`, `owner { login }`. -/
structure Repo where
  name : String
  nameWithOwner : String
  sshUrl : String
  isPrivate : Bool
  ownerLogin : String
deriving DecidableEq, Repr

/-- `pageInfo { hasNextPage endCursor }` of a repository connection.  Cursors
are modelled positionally (the i-th response of a stream is the one the
server returns for the cursor obtained from response i-1), so only the
`hasNextPage` flag is carried. -/
structure PageInfo where
  hasNextPage : Bool
deriving DecidableEq, Repr

/-- A `repositories(...)` connection: a page of nodes plus its page info. -/
structure RepoConnection where
  nodes : List Repo
  pageInfo : PageInfo
deriving DecidableEq, Repr

/-- One node of `viewer.organizations.nodes`: the organization login and its
own `repositories` connection at the request's `orgCursor`. -/
structure OrgNode where
  login : String
  repositories : RepoConnection
deriving DecidableEq, Repr

/-- The `viewer` object of a successful response: login, the personal
`repositories` connection at the request's `repoCursor`, and the first page
of `organizations`, each with its repositories at the request's `orgCursor`. -/
structure Viewer where
  login : String
  repositories : RepoConnection
  organizations : List OrgNode
deriving DecidableEq, Repr

/-- A raw HTTP exchange for one GraphQL request: the HTTP status, the
optional API-level `errors` entry of the JSON payload, and the `viewer`
data (the content of `data['viewer']`). -/
structure Response where
  status : Nat
  errors : Option String
  viewer : Viewer
deriving DecidableEq, Repr

/-- The two `raise Exception(...)` sites of `graphql_query`
(lines 52 and 55): a non-200 HTTP status, or an API-level errors list. -/
inductive QueryError where
  | badStatus (status : Nat)
  | apiErrors (detail : String)
deriving DecidableEq, Repr

/-- `GitHubCloner.graphql_query` (lines 46-56): raise on `status != 200`,
then raise if `'errors' in data`, else return the data (whose `viewer`
field is what both callers read). -/
def graphql_query (resp : Response) : Except QueryError Viewer :=
  if resp.status ≠ 200 then
    Except.error (QueryError.badStatus resp.status)
  else
    match resp.errors with
    | some detail => Except.error (QueryError.apiErrors detail)
    | none => Except.ok resp.viewer

/-- The `QueryError` that `graphql_query` signals for a failing response:
the status check comes first (line 51), the errors check second (line 54). -/
def responseError (resp : Response) : QueryError :=
  if resp.status ≠ 200 then QueryError.badStatus resp.status
  else QueryError.apiErrors (resp.errors.getD "")

/-- Placeholder viewer returned when a response stream is exhausted; it has
`hasNextPage = false` everywhere, so it is never produced by a run of the
loops under the well-formedness hypotheses of the theorems below. -/
def emptyViewer : Viewer :=
  { login := ""
    repositories := { nodes := [], pageInfo := { hasNextPage := false } }
    organizations := [] }

/-- Step 1 of `fetch_all_repositories` (lines 97-108): the personal /
collaboration pagination loop.  Each iteration issues one request (consumes
one response of the stream), accumulates `viewer.repositories.nodes`, and
breaks when `hasNextPage` is false; the cursor advance (line 108) is the
move to the next stream element.  Returns the accumulated nodes, the
`viewer` of the last response (which line 111 then reads `organizations`
from), and the number of requests issued. -/
def step1 : List Response → Except QueryError (List Repo × Viewer × Nat)
  | [] => Except.ok ([], emptyViewer, 0)
  | resp :: rest =>
    match graphql_query resp with
    | Except.error e => Except.error e
    | Except.ok v =>
      if v.repositories.pageInfo.hasNextPage then
        match step1 rest with
        | Except.error e => Except.error e
        | Except.ok (more, vlast, c) =>
          Except.ok (v.repositories.nodes ++ more, vlast, c + 1)
      else
        Except.ok (v.repositories.nodes, v, 1)

/-- The inner while-loop of step 2 (lines 113-122), for one outer iteration:
each pass issues one request with the current `orgCursor`, re-reads
`orgs = data['viewer']['organizations']['nodes']`, breaks if it is empty
(line 116-117), and otherwise reads `orgs[0]['repositories']` (line 118) —
the FIRST organization of the response, regardless of which organization the
outer `for` loop is on — accumulating its nodes and looping while its
`hasNextPage` is true.  Returns the accumulated nodes and the number of
requests issued. -/
def orgLoop : List Response → Except QueryError (List Repo × Nat)
  | [] => Except.ok ([], 0)
  | resp :: rest =>
    match graphql_query resp with
    | Except.error e => Except.error e
    | Except.ok v =>
      match v.organizations with
      | [] => Except.ok ([], 1)
      | o :: _ =>
        if o.repositories.pageInfo.hasNextPage then
          match orgLoop rest with
          | Except.error e => Except.error e
          | Except.ok (more, c) =>
            Except.ok (o.repositories.nodes ++ more, c + 1)
        else
          Except.ok (o.repositories.nodes, 1)

/-- The outer `for org in viewer['organizations']['nodes']:` loop of step 2
(lines 110-122).  For each organization of the last step-1 response it runs
one full inner loop with `org_cursor = None`, i.e. `orgLoop` on the
organization-phase response stream from its beginning; the loop variable
`org` is never used by the body, exactly as in the source. -/
def step2 (orgResps : List Response) : List OrgNode → Except QueryError (List Repo)
  | [] => Except.ok []
  | _ :: rest =>
    match orgLoop orgResps with
    | Except.error e => Except.error e
    | Except.ok (ns, _) =>
      match step2 orgResps rest with
      | Except.error e => Except.error e
      | Except.ok more => Except.ok (ns ++ more)

/-- One entry of the Python dict comprehension
`{r['nameWithOwner']: r for r in all_repos}` (line 125): assigning key `k`
replaces the value in place when `k` is already present (keeping its
position) and appends a new entry otherwise — CPython dict semantics. -/
def insertDict (d : List (String × Repo)) (k : String) (v : Repo) :
    List (String × Repo) :=
  if d.any (fun p => p.1 == k) then
    d.map (fun p => if p.1 == k then (k, v) else p)
  else
    d ++ [(k, v)]

/-- The dict built by line 125, as a left fold of `insertDict` over the
accumulated pool. -/
def buildDict (pool : List Repo) : List (String × Repo) :=
  pool.foldl (fun d r => insertDict d r.nameWithOwner r) []

/-- Lines 124-126: `unique_repos = {r['nameWithOwner']: r for r in all_repos}`
followed by `list(unique_repos.values())`. -/
def dedupByFullName (pool : List Repo) : List Repo :=
  (buildDict pool).map Prod.snd

/-- The server, as the response streams of the two request families the
script issues: `personalResps` answers the step-1 requests (which pass only
`repoCursor`), `orgResps` answers the step-2 requests (which pass only
`orgCursor`; every inner loop restarts at `org_cursor = None`, hence at the
head of the same stream). -/
structure World where
  personalResps : List Response
  orgResps : List Response
deriving DecidableEq, Repr

/-- `GitHubCloner.fetch_all_repositories` (lines 58-126): run the personal
pagination loop, then the per-organization loops over the organizations of
the last step-1 response, then deduplicate the accumulated pool by
`nameWithOwner`.  A `QueryError` raised by any page request propagates
uncaught. -/
def fetch_all_repositories (w : World) : Except QueryError (List Repo) :=
  match step1 w.personalResps with
  | Except.error e => Except.error e
  | Except.ok (personal, vlast, _) =>
    match step2 w.orgResps vlast.organizations with
    | Except.error e => Except.error e
    | Except.ok orgPart => Except.ok (dedupByFullName (personal ++ orgPart))

/-!
The sync engine (`GitHubCloner.clone_or_update_repo`, lines 128-178).

The external world of one `clone_or_update_repo` call is: the two filesystem
checks of line 136 (`repo_path.exists()` and `(repo_path / '.git').exists()`),
and the outcome of each git invocation.  An invocation outcome is
`Except.error msg` when the process-invocation layer itself raises (the
exception message, caught by the `except` of line 174) and `Except.ok out`
when the process ran, with its exit code and captured stderr.  Alongside the
result the embedding records the list of git commands actually spawned, in
order — the observable the branch-selection claims are about.
-/

/-- The three git invocations of the sync engine: `git fetch --all --prune`,
`git pull --ff-only`, `git clone <url> <path> --progress`. -/
inductive GitCmd where
  | fetchCmd
  | pullCmd
  | cloneCmd
deriving DecidableEq, Repr

/-- Outcome of a git process that did run: `returncode` and the captured
standard error stream (already decoded). -/
structure ProcOut where
  returncode : Int
  stderr : String
deriving DecidableEq, Repr

instance {ε α : Type} [DecidableEq ε] [DecidableEq α] : DecidableEq (Except ε α) := fun x y =>
  match x, y with
  | Except.error a, Except.error b => decidable_of_iff (a = b) (by simp)
  | Except.error _, Except.ok _ => isFalse (fun h => Except.noConfusion h)
  | Except.ok _, Except.error _ => isFalse (fun h => Except.noConfusion h)
  | Except.ok a, Except.ok b => decidable_of_iff (a = b) (by simp)

/-- The environment one `clone_or_update_repo` call runs against. -/
structure ProcEnv where
  pathExists : Bool
  gitDirExists : Bool
  fetchResult : Except String ProcOut
  pullResult : Except String ProcOut
  cloneResult : Except String ProcOut
deriving DecidableEq, Repr

/-- The result dict (lines 131, 154-158, 168-172, 175-176): keys `name`,
`status`, `path` always present, key `error` optional. -/
structure SyncResult where
  name : String
  status : String
  path : String
  error : Option String
deriving DecidableEq, Repr

/-- Line 130: `repo_path = self.target_dir / repo['name']` — the local path
is built from the target directory and the repository's short `name` only. -/
def localPath (targetDir : String) (repo : Repo) : String :=
  targetDir ++ "/" ++ repo.name

/-- `GitHubCloner.clone_or_update_repo` (lines 128-178).  Update branch when
the path exists and holds a `.git` directory: spawn fetch, ignore its
outcome's exit status (line 144 discards `communicate()`'s value and the
return code is never read), spawn pull, classify by pull's exit code.
Otherwise clone and classify by clone's exit code.  Any invocation-layer
exception is caught (lines 174-176) and mapped to status `error` with the
exception message; note an exception while fetching means pull is never
spawned.  Returns the result together with the ordered list of git commands
spawned. -/
def clone_or_update_repo (env : ProcEnv) (targetDir : String) (repo : Repo) :
    SyncResult × List GitCmd :=
  let name := repo.nameWithOwner
  let repoPath := localPath targetDir repo
  if env.pathExists && env.gitDirExists then
    match env.fetchResult with
    | Except.error e =>
      ({ name := name, status := "error", path := repoPath, error := some e },
        [GitCmd.fetchCmd])
    | Except.ok _ =>
      match env.pullResult with
      | Except.error e =>
        ({ name := name, status := "error", path := repoPath, error := some e },
          [GitCmd.fetchCmd, GitCmd.pullCmd])
      | Except.ok pr =>
        if pr.returncode = 0 then
          ({ name := name, status := "updated", path := repoPath, error := none },
            [GitCmd.fetchCmd, GitCmd.pullCmd])
        else
          ({ name := name, status := "update_failed", path := repoPath,
             error := some pr.stderr },
            [GitCmd.fetchCmd, GitCmd.pullCmd])
  else
    match env.cloneResult with
    | Except.error e =>
      ({ name := name, status := "error", path := repoPath, error := some e },
        [GitCmd.cloneCmd])
    | Except.ok cr =>
      if cr.returncode = 0 then
        ({ name := name, status := "cloned", path := repoPath, error := none },
          [GitCmd.cloneCmd])
      else
        ({ name := name, status := "clone_failed", path := repoPath,
           error := some cr.stderr },
          [GitCmd.cloneCmd])

/-!
The `__main__` guard (lines 243-250) and the concurrency driver of
`GitHubCloner.run` (lines 209-225).
-/

/-- How the `asyncio.run(main())` call of line 245 ends: normal return
(whatever the per-repository results were), `KeyboardInterrupt`, or any
other exception. -/
inductive RunOutcome where
  | completed
  | interrupted
  | failed (msg : String)
deriving DecidableEq, Repr

/-- The process exit code produced by the `__main__` guard (lines 243-250):
a normal return falls off the end of the script (exit 0); the
`KeyboardInterrupt` handler prints a notice and also falls off the end
(exit 0 — it contains no `sys.exit`); the generic `except Exception`
handler calls `sys.exit(1)`. -/
def mainGuardExitCode : RunOutcome → Nat
  | RunOutcome.completed => 0
  | RunOutcome.interrupted => 0
  | RunOutcome.failed _ => 1

/-- A state of the sync phase of `GitHubCloner.run` (lines 209-225):
`waiting` are descriptors whose `process_repo` task has not yet entered
`async with semaphore`; `running` are descriptors currently inside the
semaphore executing `clone_or_update_repo`; `done` are descriptors whose
task has returned its result.  `asyncio.gather` creates one task per
descriptor and returns once all of them are done. -/
structure SyncState where
  waiting : List Repo
  running : List Repo
  done : List Repo
deriving DecidableEq, Repr

/-- Interleaving semantics of the semaphore-gated tasks.  `start`: a waiting
task acquires `asyncio.Semaphore(cap)`, possible only while fewer than `cap`
tasks hold it.  `finish`: any running task completes its
`clone_or_update_repo`, releases the semaphore (the `async with` block
guarantees the release), and contributes its result. -/
inductive SyncStep (cap : Nat) : SyncState → SyncState → Prop where
  | start (d : Repo) (rest run don : List Repo) :
      run.length < cap →
      SyncStep cap ⟨d :: rest, run, don⟩ ⟨rest, d :: run, don⟩
  | finish (wait r1 r2 don : List Repo) (d : Repo) :
      SyncStep cap ⟨wait, r1 ++ d :: r2, don⟩ ⟨wait, r1 ++ r2, d :: don⟩

/-- States reachable during `run`'s sync phase, from the initial state where
`asyncio.gather(*(process_repo(r) for r in repos))` has created all tasks
and none has started. -/
inductive SyncReach (descs : List Repo) (cap : Nat) : SyncState → Prop where
  | init : SyncReach descs cap ⟨descs, [], []⟩
  | step {s t : SyncState} :
      SyncReach descs cap s → SyncStep cap s t → SyncReach descs cap t

/-- Termination measure of the sync phase: every scheduler step strictly
decreases it. -/
def syncMeasure (s : SyncState) : Nat :=
  2 * s.waiting.length + s.running.length

/-- The `hasNextPage` flag the inner organization loop steers by: that of
the first organization's connection (line 120 reads
`org_repos['pageInfo']['hasNextPage']` where `org_repos = orgs[0][...]`),
taken as false when the organizations list is empty (the loop breaks at
line 117 before reading it). -/
def orgHasNext (resp : Response) : Bool :=
  match resp.viewer.organizations with
  | [] => false
  | o :: _ => o.repositories.pageInfo.hasNextPage

/-- The nodes the inner organization loop accumulates from one response:
those of the first organization's connection, none when the organizations
list is empty. -/
def orgNodes (resp : Response) : List Repo :=
  match resp.viewer.organizations with
  | [] => []
  | o :: _ => o.repositories.nodes

/-!
Concrete instances used by counterexamples and witnesses.
-/

/-- Default used to index response streams; a successful, empty,
no-next-page response, never reached under the bounds hypotheses of the
theorems. -/
def emptyResponse : Response :=
  { status := 200, errors := none, viewer := emptyViewer }

/-- A successful (status 200, no API errors) response with the given viewer. -/
def okResp (v : Viewer) : Response :=
  { status := 200, errors := none, viewer := v }

/-- A repository of organization `orga`. -/
def repoA : Repo :=
  { name := "alpha", nameWithOwner := "orga/alpha",
    sshUrl := "git@github.com:orga/alpha.git", isPrivate := false,
    ownerLogin := "orga" }

/-- A repository of organization `orgb`. -/
def repoB : Repo :=
  { name := "beta", nameWithOwner := "orgb/beta",
    sshUrl := "git@github.com:orgb/beta.git", isPrivate := true,
    ownerLogin := "orgb" }

/-- A viewer who belongs to two organizations, `orga` holding `repoA` and
`orgb` holding `repoB`, each organization's repository collection being a
single page, and with no personal repositories. -/
def twoOrgViewer : Viewer :=
  { login := "me"
    repositories := { nodes := [], pageInfo := { hasNextPage := false } }
    organizations :=
      [ { login := "orga",
          repositories := { nodes := [repoA], pageInfo := { hasNextPage := false } } },
        { login := "orgb",
          repositories := { nodes := [repoB], pageInfo := { hasNextPage := false } } } ] }

/-- The two-organization server: every request (at any cursor family)
succeeds and returns `twoOrgViewer`. -/
def twoOrgWorld : World :=
  { personalResps := [okResp twoOrgViewer]
    orgResps := [okResp twoOrgViewer] }

/-- Two distinct repositories from different owners sharing the short name
`tool`. -/
def repoToolA : Repo :=
  { name := "tool", nameWithOwner := "alice/tool",
    sshUrl := "git@github.com:alice/tool.git", isPrivate := false,
    ownerLogin := "alice" }

/-- See `repoToolA`: the same short name under another owner. -/
def repoToolB : Repo :=
  { name := "tool", nameWithOwner := "bob/tool",
    sshUrl := "git@github.com:bob/tool.git", isPrivate := false,
    ownerLogin := "bob" }

/-- An environment where the path is absent and every git invocation
succeeds with exit code 0 and empty stderr. -/
def envAllOk : ProcEnv :=
  { pathExists := false, gitDirExists := false
    fetchResult := Except.ok { returncode := 0, stderr := "" }
    pullResult := Except.ok { returncode := 0, stderr := "" }
    cloneResult := Except.ok { returncode := 0, stderr := "" } }

/-- A second descriptor with the same `nameWithOwner` as `repoToolA` but a
different `isPrivate` flag, to observe which duplicate survives
deduplication. -/
def repoToolAv2 : Repo :=
  { name := "tool", nameWithOwner := "alice/tool",
    sshUrl := "git@github.com:alice/tool.git", isPrivate := true,
    ownerLogin := "alice" }

/-- An update-branch environment whose fetch invocation itself raises. -/
def envFetchExc : ProcEnv :=
  { pathExists := true, gitDirExists := true
    fetchResult := Except.error "git executable missing"
    pullResult := Except.ok { returncode := 0, stderr := "" }
    cloneResult := Except.ok { returncode := 0, stderr := "" } }

/-- A clone-branch environment where the clone exits 128. -/
def envCloneFail : ProcEnv :=
  { pathExists := false, gitDirExists := false
    fetchResult := Except.ok { returncode := 0, stderr := "" }
    pullResult := Except.ok { returncode := 0, stderr := "" }
    cloneResult := Except.ok { returncode := 128, stderr := "fatal: repository not found" } }

/-- An update-branch environment where the fetch ran and failed (exit 1)
and the pull refuses the fast-forward (exit 128). -/
def envPullFail : ProcEnv :=
  { pathExists := true, gitDirExists := true
    fetchResult := Except.ok { returncode := 1, stderr := "fetch: network unreachable" }
    pullResult := Except.ok { returncode := 128, stderr := "fatal: not possible to fast-forward" }
    cloneResult := Except.ok { returncode := 0, stderr := "" } }

/-- A personal-stream page with one node and more pages to come. -/
def viewerMore : Viewer :=
  { login := "me"
    repositories := { nodes := [repoToolA], pageInfo := { hasNextPage := true } }
    organizations := [] }

/-- An HTTP failure: status 500, no payload errors. -/
def badResp500 : Response :=
  { status := 500, errors := none, viewer := emptyViewer }

/-- An API-level failure: status 200 but an `errors` entry in the payload. -/
def errRespForbidden : Response :=
  { status := 200, errors := some "FORBIDDEN", viewer := emptyViewer }

/-- A server whose second personal-stream page request returns HTTP 500. -/
def worldBadPersonal : World :=
  { personalResps := [okResp viewerMore, badResp500]
    orgResps := [] }

/-- A server whose first organization-phase request carries an API error
list, after a clean one-page personal stream that discovered two
organizations. -/
def worldBadOrg : World :=
  { personalResps := [okResp twoOrgViewer]
    orgResps := [errRespForbidden] }

/-- A personal-stream middle page: empty node list, more pages announced
(page sizes vary on purpose). -/
def viewerPage2 : Viewer :=
  { login := "me"
    repositories := { nodes := [], pageInfo := { hasNextPage := true } }
    organizations := [] }

/-- A personal-stream last page: one node, `hasNextPage` false. -/
def viewerPage3 : Viewer :=
  { login := "me"
    repositories := { nodes := [repoB], pageInfo := { hasNextPage := false } }
    organizations := [] }

/-- A clean three-page personal stream whose last (and only last) page
reports `hasNextPage` false. -/
def threePageStream : List Response :=
  [okResp viewerMore, okResp viewerPage2, okResp viewerPage3]

/-!
Theorems.
-/

/-- C1 (code bug): on a server with two organizations, `orga` holding
`repoA` and `orgb` holding `repoB`, enumeration returns only `repoA`:
the outer loop of lines 110-122 iterates once per organization, but its
body always reads `orgs[0]['repositories']` (line 118) — the first
organization's collection — so `orgb`'s iteration re-accumulates `orga`'s
page and `repoB` is never enumerated, contradicting the claim that each
organization's own collection is paginated and accumulated. -/
theorem fetchAll_second_org_lost :
    fetch_all_repositories twoOrgWorld = Except.ok [repoA] ∧
    repoB.nameWithOwner ≠ repoA.nameWithOwner ∧
    (twoOrgWorld.orgResps.map
      (fun r => r.viewer.organizations.map (fun o => o.login))) = [["orga", "orgb"]] := by
  refine ⟨rfl, ?_, rfl⟩
  decide

/-- C7 (counterexample): the `KeyboardInterrupt` arm of the `__main__`
guard (lines 246-247) prints a notice and falls off the end of the script
without `sys.exit`, so on user interruption the process exits zero — not
non-zero as the claim states. -/
theorem mainGuard_interrupt_exits_zero :
    mainGuardExitCode RunOutcome.interrupted = 0 := rfl

/-- C7 (amended): the process exits non-zero (via `sys.exit(1)`) on an
unhandled top-level error; it exits zero on user interruption (after
printing a notice); and it exits zero when the run completes, even if
individual repository syncs failed. -/
theorem mainGuard_exit_codes :
    mainGuardExitCode RunOutcome.completed = 0 ∧
    mainGuardExitCode RunOutcome.interrupted = 0 ∧
    ∀ m : String, mainGuardExitCode (RunOutcome.failed m) = 1 :=
  ⟨rfl, rfl, fun _ => rfl⟩

/-- The `path` field of the result of `clone_or_update_repo` is the
computed local path, on every branch. -/
theorem cloneOrUpdate_path (env : ProcEnv) (targetDir : String) (repo : Repo) :
    (clone_or_update_repo env targetDir repo).1.path = localPath targetDir repo := by
  rcases env with ⟨pe, ge, fr, pu, cl⟩
  simp only [clone_or_update_repo]
  repeat' split
  all_goals rfl

/-- C10: the local path targeted by `clone_or_update_repo` is
`target_dir / repo['name']` (line 130) — a function of the target directory
and the short name only — so two descriptors with equal `name` but distinct
`nameWithOwner` are synced into the same directory. -/
theorem localPath_ignores_owner (targetDir : String) (env : ProcEnv) (r1 r2 : Repo)
    (hname : r1.name = r2.name) (_hfull : r1.nameWithOwner ≠ r2.nameWithOwner) :
    localPath targetDir r1 = localPath targetDir r2 ∧
    (clone_or_update_repo env targetDir r1).1.path =
      (clone_or_update_repo env targetDir r2).1.path := by
  have hpath : localPath targetDir r1 = localPath targetDir r2 := by
    unfold localPath
    rw [hname]
  exact ⟨hpath, by rw [cloneOrUpdate_path, cloneOrUpdate_path, hpath]⟩

/-- Witness for C10 at the concrete colliding descriptors `alice/tool` and
`bob/tool`. -/
theorem localPath_ignores_owner_witness :
    localPath "/backup" repoToolA = localPath "/backup" repoToolB ∧
    (clone_or_update_repo envAllOk "/backup" repoToolA).1.path =
      (clone_or_update_repo envAllOk "/backup" repoToolB).1.path :=
  localPath_ignores_owner "/backup" envAllOk repoToolA repoToolB rfl (by decide)

/-- Updating an existing key in place does not change how many entries of
the dict match any key, and inserting a fresh key adds one entry matching
exactly that key. -/
theorem countP_insertDict (d : List (String × Repo)) (k k' : String) (v : Repo) :
    (insertDict d k v).countP (fun p => p.1 == k') =
      d.countP (fun p => p.1 == k') +
        if k = k' ∧ d.any (fun p => p.1 == k) = false then 1 else 0 := by
  unfold insertDict
  split
  case isTrue h =>
    have hmap : ((d.map (fun p => if p.1 == k then (k, v) else p)).countP
        (fun p => p.1 == k')) = d.countP (fun p => p.1 == k') := by
      rw [List.countP_map]
      refine List.countP_congr ?_
      intro a _
      by_cases ha : a.1 == k
      · have hak : a.1 = k := by simpa using ha
        simp [Function.comp, ha, hak]
      · simp [Function.comp, ha]
    rw [hmap, h]
    simp
  case isFalse h =>
    have hanyf : d.any (fun p => p.1 == k) = false := Bool.eq_false_iff.mpr h
    rw [List.countP_append]
    simp [List.countP_cons, hanyf, beq_iff_eq]

/-- A list has a member satisfying a Boolean predicate exactly when the
count of such members is positive. -/
theorem any_iff_countP_pos {α : Type} (l : List α) (P : α → Bool) :
    l.any P = true ↔ 0 < l.countP P := by
  rw [List.any_eq_true, List.countP_pos_iff]

/-- The dict of line 125 holds exactly one entry per key occurring in the
accumulated pool. -/
theorem countP_buildDict (pool : List Repo) :
    ∀ k : String,
      (buildDict pool).countP (fun p => p.1 == k) =
        if pool.any (fun r => r.nameWithOwner == k) then 1 else 0 := by
  induction pool using List.reverseRecOn with
  | nil => intro k; simp [buildDict]
  | append_singleton xs r ih =>
    intro k
    have hfold : buildDict (xs ++ [r]) =
        insertDict (buildDict xs) r.nameWithOwner r := by
      unfold buildDict
      rw [List.foldl_append]
      rfl
    have hany : (buildDict xs).any (fun p => p.1 == r.nameWithOwner) = true ↔
        xs.any (fun x => x.nameWithOwner == r.nameWithOwner) = true := by
      rw [any_iff_countP_pos, ih r.nameWithOwner]
      by_cases hx : xs.any (fun x => x.nameWithOwner == r.nameWithOwner) = true
      · simp [hx]
      · simp [hx]
    rw [hfold, countP_insertDict, ih k]
    by_cases hrk : r.nameWithOwner = k
    · subst hrk
      by_cases hx : xs.any (fun x => x.nameWithOwner == r.nameWithOwner) = true
      · have hd : (buildDict xs).any (fun p => p.1 == r.nameWithOwner) = true :=
          hany.mpr hx
        simp [hx, hd, List.any_append]
      · have hxf : xs.any (fun x => x.nameWithOwner == r.nameWithOwner) = false := by
          simpa using hx
        have hdf : (buildDict xs).any (fun p => p.1 == r.nameWithOwner) = false := by
          cases hb : (buildDict xs).any (fun p => p.1 == r.nameWithOwner)
          · rfl
          · exact absurd (hany.mp hb) hx
        simp [hxf, hdf, List.any_append]
    · have hne : (r.nameWithOwner == k) = false := by
        simpa using hrk
      simp [hrk, hne, List.any_append]

/-- Every dict entry's key is its value's `nameWithOwner`. -/
theorem buildDict_key_eq (pool : List Repo) :
    ∀ p ∈ buildDict pool, p.1 = p.2.nameWithOwner := by
  induction pool using List.reverseRecOn with
  | nil => intro p hp; simp [buildDict] at hp
  | append_singleton xs r ih =>
    intro p hp
    have hfold : buildDict (xs ++ [r]) =
        insertDict (buildDict xs) r.nameWithOwner r := by
      unfold buildDict
      rw [List.foldl_append]
      rfl
    rw [hfold] at hp
    unfold insertDict at hp
    split at hp
    case isTrue h =>
      rcases List.mem_map.mp hp with ⟨q, hq, hfq⟩
      by_cases hqk : (q.1 == r.nameWithOwner)
      · rw [if_pos hqk] at hfq
        rw [← hfq]
      · rw [if_neg hqk] at hfq
        rw [← hfq]
        exact ih q hq
    case isFalse h =>
      rcases List.mem_append.mp hp with hq | hq
      · exact ih p hq
      · rcases List.mem_singleton.mp hq with rfl
        rfl

/-- The value stored under any key of the dict of line 125 is the last
element of the pool carrying that key: later assignments to an existing
key overwrite earlier ones. -/
theorem buildDict_lastWins (pool : List Repo) :
    ∀ p ∈ buildDict pool,
      (pool.filter (fun x => x.nameWithOwner == p.1)).getLast? = some p.2 := by
  induction pool using List.reverseRecOn with
  | nil => intro p hp; simp [buildDict] at hp
  | append_singleton xs r ih =>
    intro p hp
    have hfold : buildDict (xs ++ [r]) =
        insertDict (buildDict xs) r.nameWithOwner r := by
      unfold buildDict
      rw [List.foldl_append]
      rfl
    rw [hfold] at hp
    have hself : (r.nameWithOwner == r.nameWithOwner) = true := by simp
    unfold insertDict at hp
    split at hp
    case isTrue h =>
      rcases List.mem_map.mp hp with ⟨q, hq, hfq⟩
      by_cases hqk : (q.1 == r.nameWithOwner)
      · rw [if_pos hqk] at hfq
        rw [← hfq]
        rw [List.filter_append]
        simp only [List.filter, hself]
        exact List.getLast?_concat _
      · rw [if_neg hqk] at hfq
        rw [← hfq]
        have hne : (r.nameWithOwner == q.1) = false := by
          rcases Bool.eq_false_iff.mp (eq_false_of_ne_true hqk) with _
          by_contra hcon
          have : r.nameWithOwner = q.1 := by
            simpa using eq_true_of_ne_false hcon
          exact hqk (by simp [this])
        rw [List.filter_append]
        simp only [List.filter, hne, List.append_nil]
        exact ih q hq
    case isFalse h =>
      rcases List.mem_append.mp hp with hq | hq
      · have hpk : (r.nameWithOwner == p.1) = false := by
          by_contra hcon
          have heq : r.nameWithOwner = p.1 := by
            simpa using eq_true_of_ne_false hcon
          have : (buildDict xs).any (fun q => q.1 == r.nameWithOwner) = true :=
            List.any_eq_true.mpr ⟨p, hq, by simp [heq]⟩
          rw [this] at h
          exact absurd h (by decide)
        rw [List.filter_append]
        simp only [List.filter, hpk, List.append_nil]
        exact ih p hq
      · rcases List.mem_singleton.mp hq with rfl
        rw [List.filter_append]
        simp only [List.filter, hself]
        exact List.getLast?_concat _

/-- C2: the returned list of `fetch_all_repositories` is the line-125/126
deduplication of the accumulated pool; it holds exactly one descriptor per
`nameWithOwner` occurring in the pool, and the surviving descriptor for a
key is the last accumulated one carrying that key. -/
theorem fetchAll_dedup_last_seen_wins :
    (∀ (pool : List Repo) (k : String),
      (dedupByFullName pool).countP (fun r => r.nameWithOwner == k) =
        if pool.any (fun r => r.nameWithOwner == k) then 1 else 0) ∧
    (∀ pool : List Repo, ∀ r ∈ dedupByFullName pool,
      (pool.filter (fun x => x.nameWithOwner == r.nameWithOwner)).getLast? = some r) ∧
    (∀ (w : World) (personal : List Repo) (vlast : Viewer) (c : Nat)
        (orgPart : List Repo),
      step1 w.personalResps = Except.ok (personal, vlast, c) →
      step2 w.orgResps vlast.organizations = Except.ok orgPart →
      fetch_all_repositories w = Except.ok (dedupByFullName (personal ++ orgPart))) := by
  refine ⟨?_, ?_, ?_⟩
  · intro pool k
    unfold dedupByFullName
    rw [List.countP_map]
    have hcong : ((buildDict pool).countP
        ((fun r : Repo => r.nameWithOwner == k) ∘ Prod.snd)) =
        (buildDict pool).countP (fun p => p.1 == k) := by
      refine List.countP_congr ?_
      intro p hp
      have := buildDict_key_eq pool p hp
      simp [Function.comp, this]
    rw [hcong, countP_buildDict]
  · intro pool r hr
    unfold dedupByFullName at hr
    rcases List.mem_map.mp hr with ⟨p, hp, hps⟩
    have hkey := buildDict_key_eq pool p hp
    have := buildDict_lastWins pool p hp
    rw [hkey] at this
    rw [hps] at this
    exact this
  · intro w personal vlast c orgPart h1 h2
    simp [fetch_all_repositories, h1, h2]

/-- Witness for C2: on the pool `[repoToolA, repoB, repoToolAv2]`, whose
first and third elements share the key `alice/tool`, deduplication keeps
one entry for that key, the survivor is the last-seen duplicate
`repoToolAv2`, and on `twoOrgWorld` the enumeration result is the
deduplication of its accumulated pool. -/
theorem fetchAll_dedup_last_seen_wins_witness :
    (dedupByFullName [repoToolA, repoB, repoToolAv2]).countP
        (fun r => r.nameWithOwner == "alice/tool") = 1 ∧
    ([repoToolA, repoB, repoToolAv2].filter
        (fun x => x.nameWithOwner == repoToolAv2.nameWithOwner)).getLast? =
      some repoToolAv2 ∧
    fetch_all_repositories twoOrgWorld =
      Except.ok (dedupByFullName ([] ++ [repoA, repoA])) := by
  refine ⟨?_, ?_, ?_⟩
  · rw [fetchAll_dedup_last_seen_wins.1 [repoToolA, repoB, repoToolAv2] "alice/tool"]
    decide
  · exact fetchAll_dedup_last_seen_wins.2.1 [repoToolA, repoB, repoToolAv2]
      repoToolAv2 (by decide)
  · exact fetchAll_dedup_last_seen_wins.2.2 twoOrgWorld [] twoOrgViewer 1
      [repoA, repoA] rfl rfl

/-- A response with a non-200 status or an API-level error list makes
`graphql_query` raise, carrying the status (checked first, line 51) or the
error detail (line 54). -/
theorem graphql_query_error (resp : Response)
    (h : resp.status ≠ 200 ∨ resp.errors ≠ none) :
    graphql_query resp = Except.error (responseError resp) := by
  unfold graphql_query responseError
  by_cases hs : resp.status ≠ 200
  · rw [if_pos hs, if_pos hs]
  · rw [if_neg hs, if_neg hs]
    rcases he : resp.errors with _ | detail
    · rcases h with h | h
      · exact absurd h hs
      · exact absurd he h
    · simp

/-- A clean response (status 200, no error list) makes `graphql_query`
return its viewer data. -/
theorem graphql_query_ok (resp : Response) (h1 : resp.status = 200)
    (h2 : resp.errors = none) :
    graphql_query resp = Except.ok resp.viewer := by
  unfold graphql_query
  simp [h1, h2]

/-- If the first `P` personal-stream responses are clean with more pages
announced, and the `P`-th request's response fails, the step-1 loop raises
that response's `QueryError`. -/
theorem step1_error (P : Nat) :
    ∀ resps : List Response,
      P < resps.length →
      (∀ i, i < P →
        (resps.getD i emptyResponse).status = 200 ∧
        (resps.getD i emptyResponse).errors = none ∧
        (resps.getD i emptyResponse).viewer.repositories.pageInfo.hasNextPage = true) →
      ((resps.getD P emptyResponse).status ≠ 200 ∨
        (resps.getD P emptyResponse).errors ≠ none) →
      step1 resps = Except.error (responseError (resps.getD P emptyResponse)) := by
  induction P with
  | zero =>
    intro resps hlen hok hbad
    match resps, hlen with
    | r :: rest, _ =>
      simp only [List.getD_cons_zero] at hbad ⊢
      simp [step1, graphql_query_error r hbad]
  | succ P ih =>
    intro resps hlen hok hbad
    match resps, hlen with
    | r :: rest, hlen =>
      obtain ⟨h200, herr, hnext⟩ := hok 0 (Nat.succ_pos P)
      simp only [List.getD_cons_zero] at h200 herr hnext
      simp only [List.getD_cons_succ] at hbad ⊢
      have hrest := ih rest (Nat.lt_of_succ_lt_succ hlen)
        (fun i hi => by
          have := hok (i + 1) (Nat.succ_lt_succ hi)
          simpa using this)
        hbad
      simp [step1, graphql_query_ok r h200 herr, hnext, hrest]

/-- If the first `Q` organization-phase responses are clean with the first
organization's connection announcing more pages, and the `Q`-th request's
response fails, the inner organization loop raises that response's
`QueryError`. -/
theorem orgLoop_error (Q : Nat) :
    ∀ resps : List Response,
      Q < resps.length →
      (∀ i, i < Q →
        (resps.getD i emptyResponse).status = 200 ∧
        (resps.getD i emptyResponse).errors = none ∧
        orgHasNext (resps.getD i emptyResponse) = true) →
      ((resps.getD Q emptyResponse).status ≠ 200 ∨
        (resps.getD Q emptyResponse).errors ≠ none) →
      orgLoop resps = Except.error (responseError (resps.getD Q emptyResponse)) := by
  induction Q with
  | zero =>
    intro resps hlen hok hbad
    match resps, hlen with
    | r :: rest, _ =>
      simp only [List.getD_cons_zero] at hbad ⊢
      simp [orgLoop, graphql_query_error r hbad]
  | succ Q ih =>
    intro resps hlen hok hbad
    match resps, hlen with
    | r :: rest, hlen =>
      obtain ⟨h200, herr, hnext⟩ := hok 0 (Nat.succ_pos Q)
      simp only [List.getD_cons_zero] at h200 herr hnext
      simp only [List.getD_cons_succ] at hbad ⊢
      have hrest := ih rest (Nat.lt_of_succ_lt_succ hlen)
        (fun i hi => by
          have := hok (i + 1) (Nat.succ_lt_succ hi)
          simpa using this)
        hbad
      rcases horg : r.viewer.organizations with _ | ⟨o, os⟩
      · rw [orgHasNext, horg] at hnext
        exact absurd hnext (by decide)
      · rw [orgHasNext, horg] at hnext
        have hnext2 : o.repositories.pageInfo.hasNextPage = true := hnext
        simp [orgLoop, graphql_query_ok r h200 herr, horg, hnext2, hrest]

/-- A failing inner loop fails the outer per-organization loop on its first
iteration. -/
theorem step2_head_error (orgResps : List Response) (orgsList : List OrgNode)
    (e : QueryError) (hne : orgsList ≠ [])
    (h : orgLoop orgResps = Except.error e) :
    step2 orgResps orgsList = Except.error e := by
  match orgsList, hne with
  | o :: os, _ => simp [step2, h]

/-- C3: enumeration is atomic.  If any page request of the personal stream,
or any page request of the organization phase, returns a non-200 status or
a payload with an API-level error list — each earlier request of its loop
having been clean and announcing another page — then
`fetch_all_repositories` evaluates to `Except.error` carrying that
response's status or error detail, and in particular returns no
(partial) repository list. -/
theorem fetchAll_fails_atomically_on_bad_page :
    (∀ (w : World) (P : Nat),
      P < w.personalResps.length →
      (∀ i, i < P →
        (w.personalResps.getD i emptyResponse).status = 200 ∧
        (w.personalResps.getD i emptyResponse).errors = none ∧
        (w.personalResps.getD i emptyResponse).viewer.repositories.pageInfo.hasNextPage
          = true) →
      ((w.personalResps.getD P emptyResponse).status ≠ 200 ∨
        (w.personalResps.getD P emptyResponse).errors ≠ none) →
      fetch_all_repositories w =
        Except.error (responseError (w.personalResps.getD P emptyResponse))) ∧
    (∀ (w : World) (Q : Nat) (personal : List Repo) (vlast : Viewer) (c : Nat),
      step1 w.personalResps = Except.ok (personal, vlast, c) →
      vlast.organizations ≠ [] →
      Q < w.orgResps.length →
      (∀ i, i < Q →
        (w.orgResps.getD i emptyResponse).status = 200 ∧
        (w.orgResps.getD i emptyResponse).errors = none ∧
        orgHasNext (w.orgResps.getD i emptyResponse) = true) →
      ((w.orgResps.getD Q emptyResponse).status ≠ 200 ∨
        (w.orgResps.getD Q emptyResponse).errors ≠ none) →
      fetch_all_repositories w =
        Except.error (responseError (w.orgResps.getD Q emptyResponse))) := by
  constructor
  · intro w P hlen hok hbad
    have h1 := step1_error P w.personalResps hlen hok hbad
    simp [fetch_all_repositories, h1]
  · intro w Q personal vlast c h1 hne hlen hok hbad
    have h2 := orgLoop_error Q w.orgResps hlen hok hbad
    have h3 := step2_head_error w.orgResps vlast.organizations _ hne h2
    simp [fetch_all_repositories, h1, h3]

/-- Witness for C3: a 500 on the second personal page fails the whole
enumeration with its status; an API error list on the first
organization-phase request fails it with its detail. -/
theorem fetchAll_fails_atomically_on_bad_page_witness :
    fetch_all_repositories worldBadPersonal =
      Except.error (QueryError.badStatus 500) ∧
    fetch_all_repositories worldBadOrg =
      Except.error (QueryError.apiErrors "FORBIDDEN") := by
  constructor
  · exact fetchAll_fails_atomically_on_bad_page.1 worldBadPersonal 1
      (by decide)
      (fun i hi => by
        have h0 : i = 0 := Nat.lt_one_iff.mp hi
        subst h0
        exact ⟨rfl, rfl, rfl⟩)
      (Or.inl (by decide))
  · exact fetchAll_fails_atomically_on_bad_page.2 worldBadOrg 0 [] twoOrgViewer 1
      rfl
      (by decide)
      (by decide)
      (fun i hi => absurd hi (Nat.not_lt_zero i))
      (Or.inr (by decide))

/-- If the personal stream's responses are clean up to position `j`, with
more pages announced strictly before `j` and `hasNextPage` false at `j`,
the step-1 loop consumes exactly the pages up to `j`: it accumulates their
nodes in order, ends on page `j`'s viewer, and issues exactly `j + 1`
requests. -/
theorem step1_count (j : Nat) :
    ∀ resps : List Response,
      j < resps.length →
      (∀ i, i ≤ j →
        (resps.getD i emptyResponse).status = 200 ∧
        (resps.getD i emptyResponse).errors = none) →
      (∀ i, i < j →
        (resps.getD i emptyResponse).viewer.repositories.pageInfo.hasNextPage = true) →
      (resps.getD j emptyResponse).viewer.repositories.pageInfo.hasNextPage = false →
      step1 resps = Except.ok
        (((resps.take (j + 1)).map (fun r => r.viewer.repositories.nodes)).flatten,
          (resps.getD j emptyResponse).viewer, j + 1) := by
  induction j with
  | zero =>
    intro resps hlen hok _ hlast
    match resps, hlen with
    | r :: rest, _ =>
      obtain ⟨h200, herr⟩ := hok 0 (Nat.le_refl 0)
      simp only [List.getD_cons_zero] at h200 herr hlast ⊢
      simp [step1, graphql_query_ok r h200 herr, hlast]
  | succ j ih =>
    intro resps hlen hok hnext hlast
    match resps, hlen with
    | r :: rest, hlen =>
      obtain ⟨h200, herr⟩ := hok 0 (Nat.zero_le _)
      have hn0 := hnext 0 (Nat.succ_pos j)
      simp only [List.getD_cons_zero] at h200 herr hn0
      simp only [List.getD_cons_succ] at hlast ⊢
      have hrest := ih rest (Nat.lt_of_succ_lt_succ hlen)
        (fun i hi => by
          have := hok (i + 1) (Nat.succ_le_succ hi)
          simpa using this)
        (fun i hi => by
          have := hnext (i + 1) (Nat.succ_lt_succ hi)
          simpa using this)
        hlast
      simp [step1, graphql_query_ok r h200 herr, hn0, hrest,
        List.take_succ_cons, List.flatten_cons]

/-- The inner organization loop under the same conditions, steering by the
first organization's `hasNextPage` flag: it accumulates the first
organization's nodes of each page up to `j` and issues exactly `j + 1`
requests. -/
theorem orgLoop_count (j : Nat) :
    ∀ resps : List Response,
      j < resps.length →
      (∀ i, i ≤ j →
        (resps.getD i emptyResponse).status = 200 ∧
        (resps.getD i emptyResponse).errors = none) →
      (∀ i, i < j → orgHasNext (resps.getD i emptyResponse) = true) →
      orgHasNext (resps.getD j emptyResponse) = false →
      orgLoop resps = Except.ok
        (((resps.take (j + 1)).map orgNodes).flatten, j + 1) := by
  induction j with
  | zero =>
    intro resps hlen hok _ hlast
    match resps, hlen with
    | r :: rest, _ =>
      obtain ⟨h200, herr⟩ := hok 0 (Nat.le_refl 0)
      simp only [List.getD_cons_zero] at h200 herr hlast ⊢
      rcases horg : r.viewer.organizations with _ | ⟨o, os⟩
      · simp [orgLoop, graphql_query_ok r h200 herr, horg, orgNodes]
      · rw [orgHasNext, horg] at hlast
        have hlast2 : o.repositories.pageInfo.hasNextPage = false := hlast
        simp [orgLoop, graphql_query_ok r h200 herr, horg, hlast2, orgNodes]
  | succ j ih =>
    intro resps hlen hok hnext hlast
    match resps, hlen with
    | r :: rest, hlen =>
      obtain ⟨h200, herr⟩ := hok 0 (Nat.zero_le _)
      have hn0 := hnext 0 (Nat.succ_pos j)
      simp only [List.getD_cons_zero] at h200 herr hn0
      simp only [List.getD_cons_succ] at hlast ⊢
      have hrest := ih rest (Nat.lt_of_succ_lt_succ hlen)
        (fun i hi => by
          have := hok (i + 1) (Nat.succ_le_succ hi)
          simpa using this)
        (fun i hi => by
          have := hnext (i + 1) (Nat.succ_lt_succ hi)
          simpa using this)
        hlast
      rcases horg : r.viewer.organizations with _ | ⟨o, os⟩
      · rw [orgHasNext, horg] at hn0
        exact absurd hn0 (by decide)
      · rw [orgHasNext, horg] at hn0
        have hn02 : o.repositories.pageInfo.hasNextPage = true := hn0
        simp [orgLoop, graphql_query_ok r h200 herr, horg, hn02, hrest,
          List.take_succ_cons, List.flatten_cons, orgNodes]

/-- C8: for a paginated source whose page `j` is the first to report
`hasNextPage` false (all earlier pages clean and announcing a next page),
the pagination loop issues exactly `j + 1 = K` page requests — one per
page, sequentially — accumulates exactly those pages' nodes, and stops at
the flag, independently of the (varying) page sizes; both for the personal
stream's loop and for the inner organization loop. -/
theorem pagination_requests_exactly_K :
    (∀ (resps : List Response) (j : Nat),
      j < resps.length →
      (∀ i, i ≤ j →
        (resps.getD i emptyResponse).status = 200 ∧
        (resps.getD i emptyResponse).errors = none) →
      (∀ i, i < j →
        (resps.getD i emptyResponse).viewer.repositories.pageInfo.hasNextPage = true) →
      (resps.getD j emptyResponse).viewer.repositories.pageInfo.hasNextPage = false →
      step1 resps = Except.ok
        (((resps.take (j + 1)).map (fun r => r.viewer.repositories.nodes)).flatten,
          (resps.getD j emptyResponse).viewer, j + 1)) ∧
    (∀ (resps : List Response) (j : Nat),
      j < resps.length →
      (∀ i, i ≤ j →
        (resps.getD i emptyResponse).status = 200 ∧
        (resps.getD i emptyResponse).errors = none) →
      (∀ i, i < j → orgHasNext (resps.getD i emptyResponse) = true) →
      orgHasNext (resps.getD j emptyResponse) = false →
      orgLoop resps = Except.ok
        (((resps.take (j + 1)).map orgNodes).flatten, j + 1)) :=
  ⟨fun resps j => step1_count j resps, fun resps j => orgLoop_count j resps⟩

/-- Witness for C8: the clean three-page stream is consumed with exactly 3
requests and yields all pages' nodes; a one-page organization stream is
consumed with exactly 1 request. -/
theorem pagination_requests_exactly_K_witness :
    step1 threePageStream = Except.ok
      (((threePageStream.take 3).map (fun r => r.viewer.repositories.nodes)).flatten,
        (threePageStream.getD 2 emptyResponse).viewer, 3) ∧
    orgLoop twoOrgWorld.orgResps = Except.ok
      (((twoOrgWorld.orgResps.take 1).map orgNodes).flatten, 1) := by
  constructor
  · exact pagination_requests_exactly_K.1 threePageStream 2
      (by decide)
      (fun i hi => by interval_cases i <;> exact ⟨rfl, rfl⟩)
      (fun i hi => by interval_cases i <;> rfl)
      rfl
  · exact pagination_requests_exactly_K.2 twoOrgWorld.orgResps 0
      (by decide)
      (fun i hi => by
        interval_cases i
        exact ⟨rfl, rfl⟩)
      (fun i hi => absurd hi (Nat.not_lt_zero i))
      rfl

/-- C4: `clone_or_update_repo` is total (the embedding is a function — the
source's try/except at lines 135-176 converts every invocation-layer
exception into a result).  The returned status is always one of the closed
enumeration; the `error` key is present exactly on the failure statuses;
and every invocation-layer exception — while fetching, pulling, or cloning —
yields status `error` with the exception message as the detail. -/
theorem cloneOrUpdate_total_closed_status (env : ProcEnv) (targetDir : String) (repo : Repo) :
    ((clone_or_update_repo env targetDir repo).1.status = "cloned" ∨
     (clone_or_update_repo env targetDir repo).1.status = "updated" ∨
     (clone_or_update_repo env targetDir repo).1.status = "clone_failed" ∨
     (clone_or_update_repo env targetDir repo).1.status = "update_failed" ∨
     (clone_or_update_repo env targetDir repo).1.status = "error") ∧
    ((clone_or_update_repo env targetDir repo).1.error.isSome = true ↔
      ((clone_or_update_repo env targetDir repo).1.status = "clone_failed" ∨
       (clone_or_update_repo env targetDir repo).1.status = "update_failed" ∨
       (clone_or_update_repo env targetDir repo).1.status = "error")) ∧
    (∀ e : String, env.fetchResult = Except.error e →
      (env.pathExists && env.gitDirExists) = true →
      (clone_or_update_repo env targetDir repo).1.status = "error" ∧
      (clone_or_update_repo env targetDir repo).1.error = some e) ∧
    (∀ (e : String) (f : ProcOut), env.fetchResult = Except.ok f →
      env.pullResult = Except.error e →
      (env.pathExists && env.gitDirExists) = true →
      (clone_or_update_repo env targetDir repo).1.status = "error" ∧
      (clone_or_update_repo env targetDir repo).1.error = some e) ∧
    (∀ e : String, env.cloneResult = Except.error e →
      (env.pathExists && env.gitDirExists) = false →
      (clone_or_update_repo env targetDir repo).1.status = "error" ∧
      (clone_or_update_repo env targetDir repo).1.error = some e) := by
  rcases env with ⟨pe, ge, fr, pu, cl⟩
  cases pe <;> cases ge <;>
    rcases fr with fe | fo <;> rcases pu with pue | puo <;> rcases cl with ce | co <;>
    simp only [clone_or_update_repo] <;>
    (repeat' split) <;>
    simp_all

/-- Witness for C4: a fetch-invocation exception is mapped to status
`error` carrying the exception message. -/
theorem cloneOrUpdate_total_closed_status_witness :
    (clone_or_update_repo envFetchExc "/backup" repoToolA).1.status = "error" ∧
    (clone_or_update_repo envFetchExc "/backup" repoToolA).1.error =
      some "git executable missing" :=
  (cloneOrUpdate_total_closed_status envFetchExc "/backup" repoToolA).2.2.1
    "git executable missing" rfl rfl

/-- C5: branch selection.  When the path exists and holds version-control
metadata the clone command is never spawned; when the path does not exist
neither fetch nor pull is spawned, and the clone exit code classifies the
result: 0 gives `cloned`, non-zero gives `clone_failed` with the captured
stderr as the detail. -/
theorem cloneOrUpdate_branch_selection (env : ProcEnv) (targetDir : String) (repo : Repo) :
    (env.pathExists = true → env.gitDirExists = true →
      GitCmd.cloneCmd ∉ (clone_or_update_repo env targetDir repo).2) ∧
    (env.pathExists = false →
      GitCmd.fetchCmd ∉ (clone_or_update_repo env targetDir repo).2 ∧
      GitCmd.pullCmd ∉ (clone_or_update_repo env targetDir repo).2) ∧
    (∀ cr : ProcOut, env.pathExists = false → env.cloneResult = Except.ok cr →
      (cr.returncode = 0 →
        (clone_or_update_repo env targetDir repo).1.status = "cloned" ∧
        (clone_or_update_repo env targetDir repo).1.error = none) ∧
      (cr.returncode ≠ 0 →
        (clone_or_update_repo env targetDir repo).1.status = "clone_failed" ∧
        (clone_or_update_repo env targetDir repo).1.error = some cr.stderr)) := by
  rcases env with ⟨pe, ge, fr, pu, cl⟩
  cases pe <;> cases ge <;>
    rcases fr with fe | fo <;> rcases pu with pue | puo <;> rcases cl with ce | co <;>
    simp only [clone_or_update_repo] <;>
    (repeat' split) <;>
    simp_all

/-- Witness for C5: on an absent path, no fetch/pull is spawned and a
failing clone yields `clone_failed` with the captured stderr. -/
theorem cloneOrUpdate_branch_selection_witness :
    (GitCmd.fetchCmd ∉ (clone_or_update_repo envCloneFail "/backup" repoToolA).2 ∧
     GitCmd.pullCmd ∉ (clone_or_update_repo envCloneFail "/backup" repoToolA).2) ∧
    ((clone_or_update_repo envCloneFail "/backup" repoToolA).1.status = "clone_failed" ∧
     (clone_or_update_repo envCloneFail "/backup" repoToolA).1.error =
       some "fatal: repository not found") :=
  ⟨(cloneOrUpdate_branch_selection envCloneFail "/backup" repoToolA).2.1 rfl,
   ((cloneOrUpdate_branch_selection envCloneFail "/backup" repoToolA).2.2
      { returncode := 128, stderr := "fatal: repository not found" } rfl rfl).2
     (by decide)⟩

/-- C6: on the update path the fetch step's exit status is ignored — line
144 discards `communicate()`'s value and `proc_fetch.returncode` is never
read — so the whole result (status, detail, and spawned commands) is
unchanged under any fetch outcome that did run; the result is classified
solely by the pull exit code: 0 gives `updated`, non-zero gives
`update_failed` with the pull's captured stderr. -/
theorem cloneOrUpdate_fetch_exit_ignored (env : ProcEnv) (targetDir : String) (repo : Repo) :
    (∀ f1 f2 : ProcOut,
      clone_or_update_repo { env with fetchResult := Except.ok f1 } targetDir repo =
        clone_or_update_repo { env with fetchResult := Except.ok f2 } targetDir repo) ∧
    (∀ (f pr : ProcOut),
      env.pathExists = true → env.gitDirExists = true →
      env.fetchResult = Except.ok f → env.pullResult = Except.ok pr →
      (pr.returncode = 0 →
        (clone_or_update_repo env targetDir repo).1.status = "updated" ∧
        (clone_or_update_repo env targetDir repo).1.error = none) ∧
      (pr.returncode ≠ 0 →
        (clone_or_update_repo env targetDir repo).1.status = "update_failed" ∧
        (clone_or_update_repo env targetDir repo).1.error = some pr.stderr)) := by
  constructor
  · intro f1 f2
    rfl
  · rcases env with ⟨pe, ge, fr, pu, cl⟩
    rcases fr with fe | fo <;> rcases pu with pue | puo <;>
      cases pe <;> cases ge <;>
      simp only [clone_or_update_repo] <;>
      (repeat' split) <;>
      simp_all

/-- Witness for C6: a failed fetch (exit 1) changes nothing relative to a
clean fetch, and the failing pull classifies the result. -/
theorem cloneOrUpdate_fetch_exit_ignored_witness :
    clone_or_update_repo
        { envPullFail with
            fetchResult := Except.ok { returncode := 1, stderr := "fetch: network unreachable" } }
        "/backup" repoToolA =
      clone_or_update_repo
        { envPullFail with fetchResult := Except.ok { returncode := 0, stderr := "" } }
        "/backup" repoToolA ∧
    (clone_or_update_repo envPullFail "/backup" repoToolA).1.status = "update_failed" ∧
    (clone_or_update_repo envPullFail "/backup" repoToolA).1.error =
      some "fatal: not possible to fast-forward" :=
  ⟨(cloneOrUpdate_fetch_exit_ignored envPullFail "/backup" repoToolA).1
      { returncode := 1, stderr := "fetch: network unreachable" }
      { returncode := 0, stderr := "" },
   ((cloneOrUpdate_fetch_exit_ignored envPullFail "/backup" repoToolA).2
      { returncode := 1, stderr := "fetch: network unreachable" }
      { returncode := 128, stderr := "fatal: not possible to fast-forward" }
      rfl rfl rfl rfl).2 (by decide)⟩

/-- Reachable sync-phase states keep at most `cap` tasks inside the
semaphore, and the waiting, running and done lists together stay a
permutation of the initial descriptor list (each descriptor's task exists
exactly once, in exactly one of the three stages). -/
theorem syncReach_invariant (descs : List Repo) (cap : Nat) :
    ∀ s, SyncReach descs cap s →
      s.running.length ≤ cap ∧ (s.waiting ++ s.running ++ s.done).Perm descs := by
  intro s h
  induction h with
  | init => exact ⟨Nat.zero_le cap, by simp⟩
  | step hreach hstep ih =>
    rcases ih with ⟨hlen, hperm⟩
    cases hstep with
    | start d rest run don hrun =>
      refine ⟨hrun, ?_⟩
      rw [List.perm_iff_count] at hperm ⊢
      intro a
      have h := hperm a
      by_cases had : a = d <;>
        simp [List.count_append, List.count_cons, had] at h ⊢ <;>
        omega
    | finish wait r1 r2 don d =>
      constructor
      · simp only [List.length_append, List.length_cons] at hlen ⊢
        omega
      · rw [List.perm_iff_count] at hperm ⊢
        intro a
        have h := hperm a
        by_cases had : a = d <;>
          simp [List.count_append, List.count_cons, had] at h ⊢ <;>
          omega

/-- C9: the semaphore of line 209 caps concurrency and `asyncio.gather`
completes the batch.  In every reachable state of the sync phase at most
`cap` per-repository sync operations are running; every scheduler step
strictly decreases `syncMeasure` (so every execution reaches a terminal
state); and in a terminal state (no step possible) the produced results
are exactly one per initial descriptor. -/
theorem syncAll_concurrency_cap (descs : List Repo) (cap : Nat) (hcap : 0 < cap) :
    ∀ s, SyncReach descs cap s →
      s.running.length ≤ cap ∧
      ((∀ t, ¬ SyncStep cap s t) → s.done.Perm descs) ∧
      (∀ t, SyncStep cap s t → syncMeasure t < syncMeasure s) := by
  intro s hreach
  obtain ⟨hlen, hperm⟩ := syncReach_invariant descs cap s hreach
  rcases s with ⟨wait, run, don⟩
  refine ⟨hlen, ?_, ?_⟩
  · intro hterm
    cases run with
    | cons d rs => exact absurd (SyncStep.finish wait [] rs don d) (hterm _)
    | nil =>
      cases wait with
      | cons d rest => exact absurd (SyncStep.start d rest [] don hcap) (hterm _)
      | nil => simpa using hperm
  · intro t hstep
    cases hstep with
    | start d rest run2 don2 h =>
      simp only [syncMeasure, List.length_cons]
      omega
    | finish w r1 r2 dn d =>
      simp only [syncMeasure, List.length_append, List.length_cons]
      omega

/-- A scheduler step needs a waiting or a running task. -/
theorem syncStep_src (cap : Nat) (s t : SyncState) (h : SyncStep cap s t) :
    s.waiting ≠ [] ∨ s.running ≠ [] := by
  cases h with
  | start d rest run don h => exact Or.inl (by simp)
  | finish wait r1 r2 don d => exact Or.inr (by simp)

/-- Witness for C9: with descriptors `[repoA, repoB]` and cap 1, the
terminal state of the run that serializes the two syncs holds exactly one
result per descriptor. -/
theorem syncAll_concurrency_cap_witness :
    (SyncState.mk [] [] [repoB, repoA]).done.Perm [repoA, repoB] := by
  have h0 : SyncReach [repoA, repoB] 1 ⟨[repoA, repoB], [], []⟩ := SyncReach.init
  have h1 := SyncReach.step h0 (SyncStep.start repoA [repoB] [] [] (by decide))
  have h2 := SyncReach.step h1 (SyncStep.finish [repoB] [] [] [] repoA)
  have h3 := SyncReach.step h2 (SyncStep.start repoB [] [] [repoA] (by decide))
  have hreach := SyncReach.step h3 (SyncStep.finish [] [] [] [repoA] repoB)
  have hterm : ∀ t, ¬ SyncStep 1 (⟨[], [], [repoB, repoA]⟩ : SyncState) t := by
    intro t h
    rcases syncStep_src 1 _ t h with h' | h' <;> exact h' rfl
  exact (syncAll_concurrency_cap [repoA, repoB] 1 (by decide) _ hreach).2.1 hterm
